import Mathlib

/-!
Verification of the Context Assembly Engine
(src/modules/context_assembly_engine/{models,service}.py).

Shallow embedding conventions:
- Python floats are modelled as rationals.
- Python datetimes are modelled as integers (a timestamp in seconds);
  a timedelta's whole-day count is floor division by 86400, matching
  Python's timedelta normalisation.
- Python dicts are modelled as association lists in insertion order;
  dict_get returns the first binding, dict_insert updates an existing
  binding in place or appends a fresh one, which is exactly the
  observable behaviour of an insertion-ordered dict whose keys are
  unique by construction.  A key stored with value None behaves, for
  the engine, like an absent key (the code only ever tests
  data.get(k) is None), so data maps bind keys to non-None values.
- Callables held in configuration (format_fn, should_include, rule
  conditions, analyze_situation) are modelled as pure Lean functions,
  matching the purity the code assumes of them.
- datetime.utcnow() / datetime.now(timezone.utc) calls made during an
  operation are modelled by an explicit now parameter on the
  operation.  The situation analyzer constructs a Situation whose
  timestamp default factory is utcnow, so the analyzer receives the
  call's now as an extra argument and may stamp it (the default
  analyzer does exactly that); the per-block and per-rule callables
  receive the Situation itself, timestamp included.
- The raw_data field of Block is write-only in the source (stored by
  the builders, never read again), so it is omitted from the Block
  embedding.
-/

/-- Opaque Python values stored in data maps, flags and metadata. -/
inductive Val where
  | none : Val
  | str : String → Val
  | int : Int → Val
  | bool : Bool → Val
  | num : ℚ → Val
deriving DecidableEq, Repr

/-- Python truthiness of a Val. -/
def Val.truthy : Val → Bool
  | .none => false
  | .str s => s ≠ ""
  | .int n => n ≠ 0
  | .bool b => b
  | .num q => q ≠ 0

/-- Python str() of a Val (str of a float is approximated). -/
def Val.toStr : Val → String
  | .none => "None"
  | .str s => s
  | .int n => toString n
  | .bool b => if b then "True" else "False"
  | .num q => toString q

/-- A string-keyed map in insertion order. -/
abbrev DataMap := List (String × Val)

/-- The first binding of a key, i.e. dict access on a dict whose keys
are unique; returns none when the key is absent. -/
def dict_get {β : Type} : List (String × β) → String → Option β
  | [], _ => Option.none
  | (k, v) :: rest, key => if k = key then some v else dict_get rest key

/-- Insertion-ordered dict update: replace the first binding of the key
in place, or append a new binding. -/
def dict_insert {β : Type} : List (String × β) → String → β → List (String × β)
  | [], key, v => [(key, v)]
  | (k, w) :: rest, key, v =>
    if k = key then (k, v) :: rest else (k, w) :: dict_insert rest key v

/-- Trend classification (models.py Trend). -/
inductive Trend where
  | improving | stable | declining | volatile
deriving DecidableEq, Repr

/-- TemporalMetadata (models.py), datetimes as Int timestamps. -/
structure TemporalMetadata where
  first_observed : Option Int := Option.none
  last_observed : Option Int := Option.none
  occurrences : Int := 0
  trend : Trend := Trend.stable
  current : ℚ := 0
  previous : ℚ := 0
  baseline : ℚ := 0
  delta : ℚ := 0
  velocity : ℚ := 0
deriving DecidableEq, Repr

/-- Block (models.py); raw_data is omitted, see the header comment. -/
structure Block where
  key : String
  category : String := ""
  priority : ℚ := 50
  base_priority : ℚ := 50
  estimated_tokens : Int := 0
  included : Bool := false
  exclude_reason : Option String := Option.none
  formatted_text : String := ""
  signals : List String := []
  temporal : TemporalMetadata := {}
deriving DecidableEq, Repr

/-- Situation (models.py); the timestamp default factory is utcnow,
so a Situation built during an operation carries that operation's
wall-clock time (see the header note on now parameters). -/
structure Situation where
  entity_id : String := ""
  mode : String := "default"
  timestamp : Int := 0
  flags : DataMap := []
  narrative : String := ""
deriving DecidableEq, Repr

/-- Budget (models.py). -/
structure Budget where
  total_tokens : Int := 1800
  used_tokens : Int := 0
  remaining_tokens : Int := 1800
  blocks_included : Int := 0
  blocks_excluded : Int := 0
deriving DecidableEq, Repr

/-- ManifestEntry (models.py). -/
structure ManifestEntry where
  key : String
  category : String
  base_priority : ℚ
  final_priority : ℚ
  estimated_tokens : Int
  included : Bool
  exclude_reason : Option String := Option.none
  signals : List String := []
deriving DecidableEq, Repr

/-- Manifest (models.py); the timestamp default factory is the call
time, supplied to assemble as the now argument. -/
structure Manifest where
  entity_id : String
  mode : String
  timestamp : Int := 0
  situation : Situation
  budget : Budget
  entries : List ManifestEntry := []
  assembled_text : String := ""
  total_blocks_considered : Int := 0
deriving DecidableEq, Repr

/-- GoalStatus (models.py). -/
inductive GoalStatus where
  | active | paused | completed | abandoned
deriving DecidableEq, Repr

/-- Goal (models.py). -/
structure Goal where
  id : Option String := Option.none
  entity_id : String
  name : String
  description : String := ""
  status : GoalStatus := GoalStatus.active
  priority_adjustments : List (String × ℚ) := []
  created_at : Int := 0
  updated_at : Int := 0
  target_date : Option Int := Option.none
  progress : ℚ := 0
  metadata : DataMap := []
deriving DecidableEq, Repr

/-- MemoryStage (models.py). -/
inductive MemoryStage where
  | draft | reinforced | mature | decaying | revised | archived
deriving DecidableEq, Repr

/-- The value string of a MemoryStage. -/
def MemoryStage.value : MemoryStage → String
  | .draft => "draft"
  | .reinforced => "reinforced"
  | .mature => "mature"
  | .decaying => "decaying"
  | .revised => "revised"
  | .archived => "archived"

/-- MemoryCategory (models.py). -/
inductive MemoryCategory where
  | behavioral_pattern | coaching_thread | emotional_signature
  | domain_knowledge | breakthrough_moment
deriving DecidableEq, Repr

/-- The value string of a MemoryCategory. -/
def MemoryCategory.value : MemoryCategory → String
  | .behavioral_pattern => "behavioral_pattern"
  | .coaching_thread => "coaching_thread"
  | .emotional_signature => "emotional_signature"
  | .domain_knowledge => "domain_knowledge"
  | .breakthrough_moment => "breakthrough_moment"

/-- Memory (models.py). -/
structure Memory where
  id : Option String := Option.none
  entity_id : String
  category : MemoryCategory
  stage : MemoryStage := MemoryStage.draft
  confidence : ℚ := 1/5
  summary : String
  detail : String := ""
  tags : List String := []
  temporal : TemporalMetadata := {}
  created_at : Int := 0
  updated_at : Int := 0
  metadata : DataMap := []
  superseded_by : Option String := Option.none
deriving DecidableEq, Repr

/-- Tier (models.py). -/
inductive Tier where
  | always | conditional | strong_signal
deriving DecidableEq, Repr

/-- TIER_BASE_PRIORITY (models.py); the dict is total on Tier, so the
get default 60 of the source is unreachable. -/
def tier_base_priority : Tier → ℚ
  | .always => 90
  | .conditional => 60
  | .strong_signal => 30

/-- ModeConfig (models.py). -/
structure ModeConfig where
  name : String
  budget : Int := 1800
  block_keys : List String := []
  description : String := ""
deriving DecidableEq, Repr

/-- ScoringRule (service.py): a callable condition over the Situation
plus per-block-key adjustments. -/
structure ScoringRule where
  name : String
  condition : Situation → Bool
  adjustments : List (String × ℚ)
  description : String := ""

/-- RuntimeBlockDef (service.py), with the constructor defaults
already resolved (see mk_runtime_block_def). -/
structure RuntimeBlockDef where
  key : String
  tier : Tier := Tier.conditional
  base_priority : ℚ
  category : String := "context"
  gatherer_key : String
  format_fn : Val → Situation → String
  should_include : Val → Situation → Bool
  token_estimate : Int := 100

/-- Default format function of service.py: str(data) when truthy,
the empty string otherwise. -/
def default_format (data : Val) (_situation : Situation) : String :=
  if data.truthy then data.toStr else ""

/-- Default inclusion gate of service.py: always true. -/
def always_include (_data : Val) (_situation : Situation) : Bool :=
  true

/-- RuntimeBlockDef constructor (service.py __init__), including the
Python or-defaults: a base_priority of 0 or None falls back to the
tier default, an empty or missing gatherer_key falls back to key. -/
def mk_runtime_block_def (key : String) (tier : Tier) (base_priority : Option ℚ)
    (category : String) (gatherer_key : Option String)
    (format_fn : Option (Val → Situation → String))
    (should_include : Option (Val → Situation → Bool))
    (token_estimate : Int) : RuntimeBlockDef :=
  { key := key
    tier := tier
    base_priority :=
      match base_priority with
      | some p => if p = 0 then tier_base_priority tier else p
      | Option.none => tier_base_priority tier
    category := category
    gatherer_key :=
      match gatherer_key with
      | some g => if g = "" then key else g
      | Option.none => key
    format_fn := format_fn.getD default_format
    should_include := should_include.getD always_include
    token_estimate := token_estimate }

/-- Token estimate heuristic (service.py estimate_tokens): at least 1,
else one token per four characters. -/
def estimate_tokens (text : String) : Int :=
  max 1 ((text.length : Int) / 4)

/-- Executable floor of a rational (the floor of num/den). -/
def rat_floor (q : ℚ) : Int :=
  Int.fdiv q.num q.den

/-- Round-half-even of a rational, the idealisation of the rounding
performed by Python float formatting. -/
def round_half_even (q : ℚ) : Int :=
  let f := rat_floor q
  let r := q - (f : ℚ)
  if r < 1/2 then f
  else if 1/2 < r then f + 1
  else if f % 2 = 0 then f else f + 1

/-- Python format spec +.0f applied to a signed delta. -/
def signed_round_string (q : ℚ) : String :=
  (if q < 0 then "-" else "+") ++ toString (Int.natAbs (round_half_even q))

/-- Python format spec .1f (faithful for nonnegative values, which is
the only use: confidence values). -/
def one_decimal_string (q : ℚ) : String :=
  let n := round_half_even (q * 10)
  toString (Int.fdiv n 10) ++ "." ++ toString (Int.natAbs (Int.emod n 10))

/-- Python format spec .0% applied to a goal progress. -/
def percent_string (q : ℚ) : String :=
  toString (round_half_even (q * 100)) ++ "%"

/-- ContextAssemblyEngine configuration state (service.py __init__
result); block_defs is the insertion-ordered dict keyed by block key. -/
structure ContextAssemblyEngine where
  name : String
  block_defs : List (String × RuntimeBlockDef)
  scoring_rules : List ScoringRule
  analyze_situation : DataMap → Int → Situation
  modes : List (String × ModeConfig)
  default_budget : Int

/-- Default situation analyzer (service.py): flags are the raw data;
the constructed Situation's timestamp default factory stamps the
call's wall-clock time, received as the now argument. -/
def default_analyzer (data : DataMap) (now : Int) : Situation :=
  { flags := data, timestamp := now }

/-- Python x or d for an optional list argument: None and the empty
list both fall back to the default. -/
def py_or_list {α : Type} (x : Option (List α)) (d : List α) : List α :=
  match x with
  | Option.none => d
  | some l => if l.isEmpty then d else l

/-- Engine constructor (service.py __init__ and create_engine): the
block-def dict is built in registration order. -/
def create_engine (name : String) (block_defs : List RuntimeBlockDef)
    (scoring_rules : Option (List ScoringRule))
    (analyze_situation : Option (DataMap → Int → Situation))
    (modes : Option (List (String × ModeConfig)))
    (default_budget : Int) : ContextAssemblyEngine :=
  { name := name
    block_defs := block_defs.foldl (fun d bd => dict_insert d bd.key bd) []
    scoring_rules := scoring_rules.getD []
    analyze_situation := analyze_situation.getD default_analyzer
    modes := py_or_list modes [("default", { name := "default", budget := default_budget })]
    default_budget := default_budget }

/-- Mode resolution (service.py assemble, line 149): an unknown mode
falls back to a fresh ModeConfig with the engine default budget. -/
def resolve_mode_config (e : ContextAssemblyEngine) (mode : String) : ModeConfig :=
  (dict_get e.modes mode).getD { name := mode, budget := e.default_budget }

/-- The block built for one active key whose definition exists
(service.py _build_blocks loop body after the lookups). -/
def build_from_def (data : DataMap) (situation : Situation) (key : String)
    (bd : RuntimeBlockDef) : List Block :=
  match dict_get data bd.gatherer_key with
  | Option.none => []
  | some raw =>
    if bd.should_include raw situation = false then
      [{ key := key
         category := bd.category
         priority := 0
         base_priority := bd.base_priority
         included := false
         exclude_reason := some "should_include gate: False" }]
    else
      let formatted := bd.format_fn raw situation
      [{ key := key
         category := bd.category
         priority := bd.base_priority
         base_priority := bd.base_priority
         estimated_tokens := estimate_tokens formatted
         formatted_text := formatted }]

/-- One iteration of the _build_blocks loop: a key with no registered
definition or no raw data contributes nothing. -/
def build_one (e : ContextAssemblyEngine) (data : DataMap) (situation : Situation)
    (key : String) : List Block :=
  match dict_get e.block_defs key with
  | Option.none => []
  | some bd => build_from_def data situation key bd

/-- service.py _build_blocks: an empty block_keys list activates every
registered definition. -/
def build_blocks (e : ContextAssemblyEngine) (data : DataMap) (situation : Situation)
    (mode_config : ModeConfig) : List Block :=
  let active_keys :=
    if mode_config.block_keys.isEmpty then e.block_defs.map Prod.fst
    else mode_config.block_keys
  active_keys.flatMap (build_one e data situation)

/-- Adjustment of all blocks by one goal (inner loop of
_apply_goal_adjustments). -/
def apply_one_goal (blocks : List Block) (g : Goal) : List Block :=
  if g.status ≠ GoalStatus.active then blocks
  else blocks.map (fun b =>
    let adj := (dict_get g.priority_adjustments b.key).getD 0
    if adj ≠ 0 then
      { b with priority := b.priority + adj
               signals := b.signals ++ ["goal:" ++ g.name ++ ":" ++ signed_round_string adj] }
    else b)

/-- service.py _apply_goal_adjustments. -/
def apply_goal_adjustments (blocks : List Block) (goals : List Goal) : List Block :=
  goals.foldl apply_one_goal blocks

/-- Adjustment of all blocks by one scoring rule (inner loop of
_apply_scoring_rules); the condition is evaluated once per rule. -/
def apply_one_rule (blocks : List Block) (r : ScoringRule) (situation : Situation) :
    List Block :=
  let adjustments := if r.condition situation then r.adjustments else []
  blocks.map (fun b =>
    let adj := (dict_get adjustments b.key).getD 0
    if adj ≠ 0 then
      { b with priority := b.priority + adj
               signals := b.signals ++ ["rule:" ++ r.name ++ ":" ++ signed_round_string adj] }
    else b)

/-- The final clamp of _apply_scoring_rules. -/
def clamp_block (b : Block) : Block :=
  { b with priority := max 0 (min 100 b.priority) }

/-- service.py _apply_scoring_rules: every rule in order, then every
block priority clamped to the interval from 0 to 100. -/
def apply_scoring_rules (rules : List ScoringRule) (blocks : List Block)
    (situation : Situation) : List Block :=
  (rules.foldl (fun bs r => apply_one_rule bs r situation) blocks).map clamp_block

/-- service.py _build_memory_blocks: non-archived memories become
synthetic blocks with confidence-derived priority. -/
def build_memory_blocks (memories : List Memory) (_situation : Situation) : List Block :=
  memories.flatMap (fun mem =>
    if mem.stage = MemoryStage.archived then []
    else
      let base := 40 + mem.confidence * 40
      let formatted0 := "[Memory: " ++ mem.category.value ++ "] " ++ mem.summary
      let formatted := if mem.detail ≠ "" then formatted0 ++ "\n" ++ mem.detail else formatted0
      [{ key := "memory:" ++
           (match mem.id with
            | some i => if i = "" then mem.summary.take 30 else i
            | Option.none => mem.summary.take 30)
         category := "memory." ++ mem.category.value
         priority := base
         base_priority := base
         estimated_tokens := estimate_tokens formatted
         formatted_text := formatted
         signals := ["confidence:" ++ one_decimal_string mem.confidence,
                     "stage:" ++ mem.stage.value]
         temporal := mem.temporal }])

/-- Descending priority order on blocks. -/
def block_ge (a b : Block) : Prop := b.priority ≤ a.priority

instance : DecidableRel block_ge :=
  fun a b => inferInstanceAs (Decidable (b.priority ≤ a.priority))

instance : IsTotal Block block_ge :=
  ⟨fun a b => le_total b.priority a.priority⟩

instance : IsTrans Block block_ge :=
  ⟨fun _ _ _ h1 h2 => le_trans h2 h1⟩

/-- Python list.sort(key priority, reverse) is a stable descending
sort; insertion sort with the at-least relation realises exactly that
order (stability is proved below, claim C1). -/
def sort_blocks_desc (l : List Block) : List Block :=
  List.insertionSort block_ge l

/-- The budget-exhausted exclusion reason string. -/
def budget_reason (remaining : Int) : String :=
  "budget: " ++ toString remaining ++ " tokens remaining"

/-- The greedy selection loop of _select_within_budget over the sorted
candidates. -/
def select_loop : List Block → Int → List Block × List Block
  | [], _ => ([], [])
  | b :: bs, remaining =>
    if b.estimated_tokens ≤ remaining then
      let rest := select_loop bs (remaining - b.estimated_tokens)
      ({ b with included := true } :: rest.1, rest.2)
    else
      let rest := select_loop bs remaining
      (rest.1, { b with included := false, exclude_reason := some (budget_reason remaining) } :: rest.2)

/-- service.py _select_within_budget. -/
def select_within_budget (blocks : List Block) (budget : Int) :
    List Block × List Block :=
  let scoreable := blocks.filter (fun b => b.exclude_reason.isNone)
  let pre_excluded := blocks.filter (fun b => b.exclude_reason.isSome)
  let sorted := sort_blocks_desc scoreable
  let sel := select_loop sorted budget
  (sel.1, pre_excluded ++ sel.2)

/-- Lexicographic order on strings, used for sorted() over category
keys. -/
def string_le (a b : String) : Prop := a ≤ b

instance : DecidableRel string_le :=
  fun a b => inferInstanceAs (Decidable (a ≤ b))

instance : IsTotal String string_le :=
  ⟨fun a b => le_total a b⟩

instance : IsTrans String string_le :=
  ⟨fun _ _ _ h1 h2 => le_trans h1 h2⟩

/-- The effective category of a block during formatting: an empty
category renders as general. -/
def effective_category (b : Block) : String :=
  if b.category = "" then "general" else b.category

/-- service.py _format_for_llm: optional situation and goal sections,
then included blocks grouped by category in lexicographic category
order, preserving the included-list order inside a category. -/
def format_for_llm (blocks : List Block) (situation : Situation)
    (goals : List Goal) : String :=
  let sections1 : List String :=
    if situation.narrative ≠ "" then
      ["## Current Situation\n" ++ situation.narrative ++ "\n"]
    else []
  let active := goals.filter (fun g => g.status = GoalStatus.active)
  let sections2 : List String :=
    if goals.isEmpty ∨ active.isEmpty then []
    else
      [String.intercalate "\n"
        ("## Active Goals" ::
          active.map (fun g =>
            "- **" ++ g.name ++ "**: " ++ g.description ++
              " (" ++ percent_string g.progress ++ ")")) ++ "\n"]
  let cats := List.insertionSort string_le ((blocks.map effective_category).eraseDups)
  let block_sections := cats.flatMap (fun c =>
    (blocks.filter (fun b => effective_category b = c)).map (fun b =>
      "## " ++ b.key ++ "\n" ++ b.formatted_text ++ "\n"))
  String.intercalate "\n" (sections1 ++ sections2 ++ block_sections)

/-- A manifest entry recording one block outcome (service.py assemble,
phase 8). -/
def to_manifest_entry (b : Block) : ManifestEntry :=
  { key := b.key
    category := b.category
    base_priority := b.base_priority
    final_priority := b.priority
    estimated_tokens := b.estimated_tokens
    included := b.included
    exclude_reason := b.exclude_reason
    signals := b.signals }

/-- Phases 2 to 5 of assemble: build blocks, adjust by goals when any
are supplied, apply scoring rules, then append memory blocks when any
memories are supplied. -/
def assemble_blocks (e : ContextAssemblyEngine) (data : DataMap) (situation : Situation)
    (mode_config : ModeConfig) (goals : List Goal) (memories : List Memory) :
    List Block :=
  let blocks1 := build_blocks e data situation mode_config
  let blocks2 := if goals.isEmpty then blocks1 else apply_goal_adjustments blocks1 goals
  let blocks3 := apply_scoring_rules e.scoring_rules blocks2 situation
  if memories.isEmpty then blocks3
  else blocks3 ++ build_memory_blocks memories situation

/-- service.py assemble: the full pipeline; now is the wall-clock time
of the call, recorded in the manifest timestamp. -/
def assemble (e : ContextAssemblyEngine) (entity_id : String) (data : DataMap)
    (mode : String) (goals : List Goal) (memories : List Memory) (now : Int) :
    String × Manifest :=
  let mode_config := resolve_mode_config e mode
  let budget_limit := mode_config.budget
  let situation0 := e.analyze_situation data now
  let situation := { situation0 with entity_id := entity_id, mode := mode }
  let blocks4 := assemble_blocks e data situation mode_config goals memories
  let sel := select_within_budget blocks4 budget_limit
  let included := sel.1
  let excluded := sel.2
  let text := format_for_llm included situation goals
  let used := (included.map (fun b => b.estimated_tokens)).sum
  let budget : Budget :=
    { total_tokens := budget_limit
      used_tokens := used
      remaining_tokens := budget_limit - used
      blocks_included := (included.length : Int)
      blocks_excluded := (excluded.length : Int) }
  let entries := (included ++ excluded).map to_manifest_entry
  let manifest : Manifest :=
    { entity_id := entity_id
      mode := mode
      timestamp := now
      situation := situation
      budget := budget
      entries := entries
      assembled_text := text
      total_blocks_considered := (entries.length : Int) }
  (text, manifest)

/-- Ascending timestamp order on observations, the sort key of
compute_temporal. -/
def ts_le (a b : Int × ℚ) : Prop := a.1 ≤ b.1

instance : DecidableRel ts_le :=
  fun a b => inferInstanceAs (Decidable (a.1 ≤ b.1))

instance : IsTotal (Int × ℚ) ts_le :=
  ⟨fun a b => le_total a.1 b.1⟩

instance : IsTrans (Int × ℚ) ts_le :=
  ⟨fun _ _ _ h1 h2 => le_trans h1 h2⟩

/-- Python abs on a number. -/
def py_abs (q : ℚ) : ℚ :=
  if q < 0 then -q else q

/-- The whole-day count of the timedelta from dt to now, as Python
timedelta days (floor division). -/
def days_ago (now dt : Int) : Int :=
  Int.fdiv (now - dt) 86400

/-- The list average used by compute_temporal: 0 for an empty list. -/
def avg_of (vals : List ℚ) : ℚ :=
  if vals.isEmpty then 0 else vals.sum / (vals.length : ℚ)

/-- The values in the current window: observed at most window_current
days ago (future observations included, as in the source). -/
def current_window (s : List (Int × ℚ)) (now window_current : Int) : List ℚ :=
  (s.filter (fun x => days_ago now x.1 ≤ window_current)).map Prod.snd

/-- The values observed between window_lo (exclusive) and window_hi
(inclusive) days ago. -/
def past_window (s : List (Int × ℚ)) (now window_lo window_hi : Int) : List ℚ :=
  (s.filter (fun x => window_lo < days_ago now x.1 ∧ days_ago now x.1 ≤ window_hi)).map Prod.snd

/-- The metadata computed by compute_temporal from the sorted
observation list (n is the observation count). -/
def temporal_meta (s : List (Int × ℚ)) (n : Int)
    (now window_current window_previous window_baseline : Int) : TemporalMetadata :=
  let current_vals := current_window s now window_current
  let previous_vals := past_window s now window_current window_previous
  let baseline_vals := past_window s now window_previous window_baseline
  let current_avg := avg_of current_vals
  let previous_avg := avg_of previous_vals
  let baseline_avg := avg_of baseline_vals
  let delta := current_avg - previous_avg
  let trend :=
    if current_vals.length < 2 then Trend.stable
    else if py_abs delta < 1/2 then Trend.stable
    else if 0 < delta then Trend.improving
    else Trend.declining
  let velocity :=
    if previous_avg ≠ 0 ∧ baseline_avg ≠ 0 then delta - (previous_avg - baseline_avg)
    else 0
  { first_observed := s.head?.map Prod.fst
    last_observed := s.getLast?.map Prod.fst
    occurrences := n
    trend := trend
    current := current_avg
    previous := previous_avg
    baseline := baseline_avg
    delta := delta
    velocity := velocity }

/-- service.py compute_temporal.  The source sorts its argument list
in place; the first component of the result is the final state of the
caller's list, the second the returned metadata. -/
def compute_temporal (values : List (Int × ℚ))
    (now window_current window_previous window_baseline : Int) :
    List (Int × ℚ) × TemporalMetadata :=
  if values.isEmpty then (values, {})
  else
    let sorted := List.insertionSort ts_le values
    (sorted, temporal_meta sorted (values.length : Int)
      now window_current window_previous window_baseline)

/-- service.py advance_memory_lifecycle. -/
def advance_memory_lifecycle (memory : Memory) (reinforced : Bool) (now : Int) :
    Memory :=
  if reinforced then
    let m1 := { memory with
      temporal := { memory.temporal with
        occurrences := memory.temporal.occurrences + 1
        last_observed := some now }
      confidence := min 1 (memory.confidence + 3/20) }
    let m2 :=
      if m1.stage = MemoryStage.draft ∧ 2/5 ≤ m1.confidence then
        { m1 with stage := MemoryStage.reinforced }
      else if m1.stage = MemoryStage.reinforced ∧ 7/10 ≤ m1.confidence then
        { m1 with stage := MemoryStage.mature }
      else if m1.stage = MemoryStage.decaying then
        { m1 with stage := MemoryStage.reinforced, confidence := max (2/5) m1.confidence }
      else m1
    { m2 with updated_at := now }
  else
    let m1 := { memory with confidence := max 0 (memory.confidence - 1/20) }
    let m2 :=
      if m1.confidence < 3/10 ∧ m1.stage = MemoryStage.mature then
        { m1 with stage := MemoryStage.decaying }
      else m1
    { m2 with updated_at := now }

/-- The metadata value stored under revised_from: the old memory id
(None when absent). -/
def opt_str_val : Option String → Val
  | some s => Val.str s
  | Option.none => Val.none

/-- service.py revise_memory: archive the old memory, create the new
draft; the new memory is created without an id, so the recorded
superseded_by link is its (absent) id. -/
def revise_memory (old : Memory) (new_summary new_detail : String) (now : Int) :
    Memory × Memory :=
  let old1 := { old with stage := MemoryStage.archived, updated_at := now }
  let revised : Memory :=
    { id := Option.none
      entity_id := old.entity_id
      category := old.category
      stage := MemoryStage.draft
      confidence := 3/10
      summary := new_summary
      detail := if new_detail = "" then "Previously: " ++ old.summary else new_detail
      tags := old.tags
      temporal := { first_observed := some now, last_observed := some now, occurrences := 1 }
      created_at := now
      updated_at := now
      metadata := dict_insert old.metadata "revised_from" (opt_str_val old.id)
      superseded_by := Option.none }
  let old2 := { old1 with superseded_by := revised.id }
  (old2, revised)

/-- The two wall-clock stamps of a run erased, for comparing two runs
up to their call times: the manifest timestamp and the timestamp of
the situation embedded in it (both come from utcnow default
factories). -/
def erase_timestamps (m : Manifest) : Manifest :=
  { m with timestamp := 0, situation := { m.situation with timestamp := 0 } }

/-- A situation consumer that never consults the situation timestamp:
its result is unchanged by erasing the timestamp. -/
def timestamp_blind_fn {α : Type} (f : Situation → α) : Prop :=
  ∀ s1 s2 : Situation,
    ({ s1 with timestamp := 0 } : Situation) = { s2 with timestamp := 0 } → f s1 = f s2

/-- An engine whose configured block callables and rule conditions
never consult the situation timestamp (the only wall-clock value the
engine feeds them). -/
def engine_timestamp_blind (e : ContextAssemblyEngine) : Prop :=
  (∀ kv ∈ e.block_defs, ∀ raw : Val,
      timestamp_blind_fn (kv.2.format_fn raw) ∧
      timestamp_blind_fn (kv.2.should_include raw)) ∧
  (∀ r ∈ e.scoring_rules, timestamp_blind_fn r.condition)

/-- An analyzer whose dependence on the call time is confined to the
timestamp of the situation it constructs. -/
def analyzer_time_confined (f : DataMap → Int → Situation) : Prop :=
  ∀ (d : DataMap) (t t' : Int),
    ({ f d t with timestamp := 0 } : Situation) = { f d t' with timestamp := 0 }

/-- The total token estimate of the included entries of a manifest. -/
def manifest_included_tokens (m : Manifest) : Int :=
  ((m.entries.filter (fun en => en.included)).map (fun en => en.estimated_tokens)).sum

/-- One step of the budget selector as the spec words it: include the
block when its token estimate fits the remaining budget, decrementing
the remaining budget, otherwise exclude it with the budget reason
built from the current remaining budget.  The state is the included
list, the excluded list and the remaining budget. -/
def spec_select_step (st : List Block × List Block × Int) (b : Block) :
    List Block × List Block × Int :=
  if b.estimated_tokens ≤ st.2.2 then
    (st.1 ++ [{ b with included := true }], st.2.1, st.2.2 - b.estimated_tokens)
  else
    (st.1,
     st.2.1 ++ [{ b with included := false, exclude_reason := some (budget_reason st.2.2) }],
     st.2.2)

/-- The budget selector as the spec words it (section 4.7): place the
pre-excluded blocks directly into the excluded set, iterate the
remaining candidates in stable descending priority order folding the
greedy step over them. -/
def spec_select (blocks : List Block) (budget : Int) : List Block × List Block :=
  let pre_excluded := blocks.filter (fun b => b.exclude_reason.isSome)
  let candidates := sort_blocks_desc (blocks.filter (fun b => b.exclude_reason.isNone))
  let final := candidates.foldl spec_select_step ([], [], budget)
  (final.1, pre_excluded ++ final.2.1)

/-- A conditional-tier block definition with key a, formatting its raw
value with str(). -/
def bd_a : RuntimeBlockDef :=
  mk_runtime_block_def "a" Tier.conditional Option.none "context" Option.none
    (some (fun d _ => d.toStr)) Option.none 100

/-- A conditional-tier block definition with key b. -/
def bd_b : RuntimeBlockDef :=
  mk_runtime_block_def "b" Tier.conditional Option.none "context" Option.none
    (some (fun d _ => d.toStr)) Option.none 100

/-- An engine with no block definitions and default configuration. -/
def engine_plain : ContextAssemblyEngine :=
  create_engine "plain" [] Option.none Option.none Option.none 1800

/-- An engine with the single block definition bd_a and default
configuration. -/
def engine_single : ContextAssemblyEngine :=
  create_engine "single" [bd_a] Option.none Option.none Option.none 1800

/-- An engine whose default mode is configured with a negative budget
(the ModeConfig budget field is a plain Python int, so nothing rules
this configuration out). -/
def engine_negative : ContextAssemblyEngine :=
  create_engine "negative" [bd_a] Option.none Option.none
    (some [("default", { name := "default", budget := -1 })]) 1800

/-- An engine whose configured default mode differs from the engine
default budget: the default mode has budget 500 and one active key,
while the engine default budget is 1800. -/
def engine_modes : ContextAssemblyEngine :=
  create_engine "modes" [bd_a] Option.none Option.none
    (some [("default", { name := "default", budget := 500, block_keys := ["a"] })]) 1800

/-- An engine with the two block definitions bd_a and bd_b. -/
def engine_pair : ContextAssemblyEngine :=
  create_engine "pair" [bd_a, bd_b] Option.none Option.none Option.none 1800

/-- The block engine_single builds for key a from the raw string hi. -/
def built_block_a : Block :=
  { key := "a", category := "context", priority := 60, base_priority := 60,
    estimated_tokens := 1, included := false, exclude_reason := Option.none,
    formatted_text := "hi", signals := [], temporal := {} }

/-- Claim C7: revise_memory archives the old memory with its
superseded_by link set to the id of the newly created memory (the new
memory carries no id yet, so the link equals that absent id), and the
new memory is a draft with confidence 0.3, occurrence count 1, detail
defaulting to a back-reference to the prior summary, the old tags
carried forward, and the old metadata merged with the revised_from
key. -/
theorem claim_c7_revise (old : Memory) (new_summary new_detail : String) (now : Int) :
    (revise_memory old new_summary new_detail now).1.stage = MemoryStage.archived ∧
    (revise_memory old new_summary new_detail now).1.superseded_by =
      (revise_memory old new_summary new_detail now).2.id ∧
    (revise_memory old new_summary new_detail now).1.updated_at = now ∧
    (revise_memory old new_summary new_detail now).2.stage = MemoryStage.draft ∧
    (revise_memory old new_summary new_detail now).2.confidence = 3/10 ∧
    (revise_memory old new_summary new_detail now).2.temporal.occurrences = 1 ∧
    (revise_memory old new_summary new_detail now).2.summary = new_summary ∧
    (revise_memory old new_summary new_detail now).2.detail =
      (if new_detail = "" then "Previously: " ++ old.summary else new_detail) ∧
    (revise_memory old new_summary new_detail now).2.tags = old.tags ∧
    (revise_memory old new_summary new_detail now).2.metadata =
      dict_insert old.metadata "revised_from" (opt_str_val old.id) ∧
    (revise_memory old new_summary new_detail now).2.entity_id = old.entity_id ∧
    (revise_memory old new_summary new_detail now).2.category = old.category :=
  ⟨rfl, rfl, rfl, rfl, rfl, rfl, rfl, rfl, rfl, rfl, rfl, rfl⟩

/-- Claim C5: after the goal-adjustment and scoring-rule phases every
block carries a final priority between 0 and 100, for every
combination of rule and goal deltas. -/
theorem claim_c5_priority_clamped (e : ContextAssemblyEngine) (data : DataMap)
    (s : Situation) (mc : ModeConfig) (goals : List Goal) (b : Block)
    (hb : b ∈ apply_scoring_rules e.scoring_rules
      (if goals.isEmpty then build_blocks e data s mc
       else apply_goal_adjustments (build_blocks e data s mc) goals) s) :
    0 ≤ b.priority ∧ b.priority ≤ 100 := by
  unfold apply_scoring_rules at hb
  obtain ⟨a, _, rfl⟩ := List.mem_map.mp hb
  unfold clamp_block
  refine ⟨le_max_left 0 _, ?_⟩
  exact max_le (by norm_num) (min_le_left 100 a.priority)

/-- Witness for claim C5 at a concrete engine and block. -/
theorem claim_c5_witness :
    built_block_a ∈
        apply_scoring_rules engine_single.scoring_rules
          (if ([] : List Goal).isEmpty then
            build_blocks engine_single [("a", Val.str "hi")] {}
              (resolve_mode_config engine_single "default")
           else apply_goal_adjustments
            (build_blocks engine_single [("a", Val.str "hi")] {}
              (resolve_mode_config engine_single "default")) []) {} ∧
    0 ≤ built_block_a.priority ∧ built_block_a.priority ≤ 100 := by
  constructor
  · decide
  · exact claim_c5_priority_clamped engine_single [("a", Val.str "hi")] {}
      (resolve_mode_config engine_single "default") [] built_block_a (by decide)

/-- Claim C4 counterexample: an engine with one active block
definition, run on a data map missing that definition's slice,
records nothing at all: the manifest has no entries and zero blocks
considered, so no block excluded with reason no data exists.  The
claim asserts a recorded excluded block, which is therefore false. -/
theorem claim_c4_counterexample :
    engine_single.block_defs.map Prod.fst = ["a"] ∧
    (assemble engine_single "x" [] "default" [] [] 0).2.entries = [] ∧
    (assemble engine_single "x" [] "default" [] [] 0).2.total_blocks_considered = 0 := by
  refine ⟨rfl, ?_, ?_⟩ <;> decide

/-- Claim C4 amended: an active block definition whose named data
slice is absent contributes nothing to the run: the builder step for
its key returns no block (it is silently skipped, not recorded); no
exception path exists since the embedding is total. -/
theorem claim_c4_amended (e : ContextAssemblyEngine) (data : DataMap) (s : Situation)
    (key : String) (bd : RuntimeBlockDef)
    (h1 : dict_get e.block_defs key = some bd)
    (h2 : dict_get data bd.gatherer_key = Option.none) :
    build_one e data s key = [] := by
  unfold build_one
  rw [h1]
  show build_from_def data s key bd = []
  unfold build_from_def
  rw [h2]

/-- Witness for the amended claim C4 at a concrete engine. -/
theorem claim_c4_amended_witness :
    (dict_get engine_single.block_defs "a" = some bd_a ∧
     dict_get ([] : DataMap) bd_a.gatherer_key = Option.none) ∧
    build_one engine_single [] {} "a" = [] := by
  refine ⟨⟨rfl, rfl⟩, ?_⟩
  exact claim_c4_amended engine_single [] {} "a" bd_a rfl rfl

/-- Claim C9 counterexample: an engine whose configured default mode
has budget 500 and one active key, called with an unknown mode,
assembles against the engine default budget 1800, not against the
default mode's configuration. -/
theorem claim_c9_counterexample :
    (dict_get engine_modes.modes "default").map ModeConfig.budget = some 500 ∧
    (assemble engine_modes "x" [("a", Val.int 1)] "nosuch" [] [] 0).2.budget.total_tokens
      = 1800 ∧
    (assemble engine_modes "x" [("a", Val.int 1)] "nosuch" [] [] 0).2.budget.total_tokens
      ≠ 500 := by
  refine ⟨rfl, ?_, ?_⟩ <;> decide

/-- Claim C9 amended: an unknown mode resolves to a fresh ModeConfig
named after the requested mode, with the engine default budget and an
empty active-key list (hence all definitions active), not to the
configured default mode. -/
theorem claim_c9_amended (e : ContextAssemblyEngine) (mode : String)
    (h : dict_get e.modes mode = Option.none) :
    resolve_mode_config e mode =
      { name := mode, budget := e.default_budget, block_keys := [], description := "" } ∧
    ∀ entity_id data goals memories now,
      (assemble e entity_id data mode goals memories now).2.budget.total_tokens =
        e.default_budget := by
  have hr : resolve_mode_config e mode =
      { name := mode, budget := e.default_budget, block_keys := [], description := "" } := by
    unfold resolve_mode_config
    rw [h]
    rfl
  refine ⟨hr, ?_⟩
  intro entity_id data goals memories now
  simp only [assemble, hr]

/-- Witness for the amended claim C9 at a concrete engine. -/
theorem claim_c9_amended_witness :
    dict_get engine_single.modes "nosuch" = Option.none ∧
    resolve_mode_config engine_single "nosuch" =
      { name := "nosuch", budget := 1800, block_keys := [], description := "" } := by
  refine ⟨rfl, ?_⟩
  exact (claim_c9_amended engine_single "nosuch" rfl).1

/-- Claim C3 counterexample: two assemble calls with identical
arguments made at different wall-clock instants return manifests that
differ (in the recorded manifest timestamp, and in the timestamp of
the situation the default analyzer stamped), so the manifests are not
byte-identical. -/
theorem claim_c3_counterexample :
    (assemble engine_plain "e" [] "default" [] [] 0).2 ≠
      (assemble engine_plain "e" [] "default" [] [] 1).2 := by
  decide

/-- A successful dict lookup comes from a stored binding. -/
theorem dict_get_mem {β : Type} (l : List (String × β)) (k : String) (v : β)
    (h : dict_get l k = some v) : (k, v) ∈ l := by
  induction l with
  | nil => cases h
  | cons hd rest ih =>
    obtain ⟨k', v'⟩ := hd
    unfold dict_get at h
    by_cases he : k' = k
    · rw [if_pos he] at h
      injection h with h2
      subst he
      subst h2
      exact List.mem_cons_self _ _
    · rw [if_neg he] at h
      exact List.mem_cons_of_mem _ (ih h)

/-- Overriding entity id and mode preserves agreement up to the
timestamp. -/
theorem situation_stamp_override {a1 a2 : Situation}
    (h : ({ a1 with timestamp := 0 } : Situation) = { a2 with timestamp := 0 })
    (E M : String) :
    ({ { a1 with entity_id := E, mode := M } with timestamp := 0 } : Situation) =
      { { a2 with entity_id := E, mode := M } with timestamp := 0 } := by
  cases a1
  cases a2
  simp_all [Situation.mk.injEq]

/-- Building from one definition yields the same blocks for two
situations agreeing up to the timestamp, when the definition's
callables never consult the timestamp. -/
theorem build_from_def_timestamp (data : DataMap) (key : String)
    (bd : RuntimeBlockDef) {s1 s2 : Situation}
    (hsit : ({ s1 with timestamp := 0 } : Situation) = { s2 with timestamp := 0 })
    (hfmt : ∀ raw, timestamp_blind_fn (bd.format_fn raw))
    (hinc : ∀ raw, timestamp_blind_fn (bd.should_include raw)) :
    build_from_def data s1 key bd = build_from_def data s2 key bd := by
  unfold build_from_def
  cases hg : dict_get data bd.gatherer_key with
  | none => rfl
  | some raw =>
    dsimp only
    rw [hinc raw s1 s2 hsit, hfmt raw s1 s2 hsit]

/-- One builder step yields the same blocks for two situations
agreeing up to the timestamp, on a timestamp-blind engine. -/
theorem build_one_timestamp (e : ContextAssemblyEngine) (data : DataMap)
    {s1 s2 : Situation}
    (hsit : ({ s1 with timestamp := 0 } : Situation) = { s2 with timestamp := 0 })
    (hb : engine_timestamp_blind e) (key : String) :
    build_one e data s1 key = build_one e data s2 key := by
  unfold build_one
  cases hg : dict_get e.block_defs key with
  | none => rfl
  | some bd =>
    have hmem : (key, bd) ∈ e.block_defs := dict_get_mem e.block_defs key bd hg
    exact build_from_def_timestamp data key bd hsit
      (fun raw => (hb.1 (key, bd) hmem raw).1)
      (fun raw => (hb.1 (key, bd) hmem raw).2)

/-- The block builder yields the same blocks for two situations
agreeing up to the timestamp, on a timestamp-blind engine. -/
theorem build_blocks_timestamp (e : ContextAssemblyEngine) (data : DataMap)
    (mc : ModeConfig) {s1 s2 : Situation}
    (hsit : ({ s1 with timestamp := 0 } : Situation) = { s2 with timestamp := 0 })
    (hb : engine_timestamp_blind e) :
    build_blocks e data s1 mc = build_blocks e data s2 mc := by
  unfold build_blocks
  rw [funext (fun key => build_one_timestamp e data hsit hb key)]

/-- One rule application agrees on two situations its condition does
not distinguish. -/
theorem apply_one_rule_timestamp (blocks : List Block) (r : ScoringRule)
    {s1 s2 : Situation} (hcond : r.condition s1 = r.condition s2) :
    apply_one_rule blocks r s1 = apply_one_rule blocks r s2 := by
  unfold apply_one_rule
  rw [hcond]

/-- The scoring-rule phase agrees on two situations no rule condition
distinguishes. -/
theorem apply_scoring_rules_timestamp (rules : List ScoringRule)
    (blocks : List Block) {s1 s2 : Situation}
    (h : ∀ r ∈ rules, r.condition s1 = r.condition s2) :
    apply_scoring_rules rules blocks s1 = apply_scoring_rules rules blocks s2 := by
  unfold apply_scoring_rules
  congr 1
  induction rules generalizing blocks with
  | nil => rfl
  | cons r rest ih =>
    simp only [List.foldl_cons]
    rw [apply_one_rule_timestamp blocks r (h r (List.mem_cons_self r rest))]
    exact ih (apply_one_rule blocks r s2) (fun r2 hr2 => h r2 (List.mem_cons_of_mem r hr2))

/-- Phases 2 to 5 yield the same blocks for two situations agreeing up
to the timestamp, on a timestamp-blind engine (memory blocks ignore
the situation entirely). -/
theorem assemble_blocks_timestamp (e : ContextAssemblyEngine) (data : DataMap)
    (mc : ModeConfig) (goals : List Goal) (memories : List Memory)
    {s1 s2 : Situation}
    (hsit : ({ s1 with timestamp := 0 } : Situation) = { s2 with timestamp := 0 })
    (hb : engine_timestamp_blind e) :
    assemble_blocks e data s1 mc goals memories =
      assemble_blocks e data s2 mc goals memories := by
  unfold assemble_blocks
  dsimp only
  rw [build_blocks_timestamp e data mc hsit hb,
      apply_scoring_rules_timestamp e.scoring_rules _
        (fun r hr => hb.2 r hr s1 s2 hsit),
      show build_memory_blocks memories s1 = build_memory_blocks memories s2 from rfl]

/-- The formatter agrees on two situations with equal narratives. -/
theorem format_for_llm_timestamp (blocks : List Block) (goals : List Goal)
    {s1 s2 : Situation} (hn : s1.narrative = s2.narrative) :
    format_for_llm blocks s1 goals = format_for_llm blocks s2 goals := by
  unfold format_for_llm
  rw [hn]

/-- Claim C3 amended: two assemble calls with identical arguments
produce byte-identical assembled text and manifests identical except
for the two wall-clock stamps, the manifest timestamp and the
situation timestamp (both utcnow default factories), provided the
analyzer's time dependence is confined to the situation timestamp
(true of the default analyzer) and the configured block and rule
callables never consult that timestamp, the only wall-clock value the
engine feeds them. -/
theorem claim_c3_amended (e : ContextAssemblyEngine) (entity_id : String)
    (data : DataMap) (mode : String) (goals : List Goal) (memories : List Memory)
    (t1 t2 : Int) (ha : analyzer_time_confined e.analyze_situation)
    (hb : engine_timestamp_blind e) :
    (assemble e entity_id data mode goals memories t1).1 =
      (assemble e entity_id data mode goals memories t2).1 ∧
    erase_timestamps (assemble e entity_id data mode goals memories t1).2 =
      erase_timestamps (assemble e entity_id data mode goals memories t2).2 := by
  have hsit : ({ { e.analyze_situation data t1 with
          entity_id := entity_id, mode := mode } with timestamp := 0 } : Situation) =
      { { e.analyze_situation data t2 with
          entity_id := entity_id, mode := mode } with timestamp := 0 } :=
    situation_stamp_override (ha data t1 t2) entity_id mode
  have hblocks := assemble_blocks_timestamp e data (resolve_mode_config e mode)
    goals memories hsit hb
  have hnarr : ({ e.analyze_situation data t1 with
        entity_id := entity_id, mode := mode } : Situation).narrative =
      ({ e.analyze_situation data t2 with
        entity_id := entity_id, mode := mode } : Situation).narrative := by
    have h0 := congrArg Situation.narrative hsit
    exact h0
  constructor
  · simp only [assemble]
    rw [hblocks]
    exact format_for_llm_timestamp _ goals hnarr
  · simp only [assemble, erase_timestamps]
    rw [hblocks, format_for_llm_timestamp _ goals hnarr, hsit]

/-- Witness for the amended claim C3 at a concrete engine whose
analyzer and callables satisfy the hypotheses. -/
theorem claim_c3_witness :
    (analyzer_time_confined engine_single.analyze_situation ∧
     engine_timestamp_blind engine_single) ∧
    (assemble engine_single "e" [("a", Val.int 7)] "default" [] [] 3).1 =
      (assemble engine_single "e" [("a", Val.int 7)] "default" [] [] 4).1 ∧
    erase_timestamps (assemble engine_single "e" [("a", Val.int 7)] "default" [] [] 3).2 =
      erase_timestamps (assemble engine_single "e" [("a", Val.int 7)] "default" [] [] 4).2 := by
  have ha : analyzer_time_confined engine_single.analyze_situation :=
    fun d t t' => rfl
  have hb : engine_timestamp_blind engine_single := by
    constructor
    · intro kv hkv raw
      rw [show engine_single.block_defs = [("a", bd_a)] from rfl] at hkv
      rcases List.mem_singleton.mp hkv with rfl
      exact ⟨fun s1 s2 _ => rfl, fun s1 s2 _ => rfl⟩
    · intro r hr
      rw [show engine_single.scoring_rules = [] from rfl] at hr
      cases hr
  exact ⟨⟨ha, hb⟩,
    (claim_c3_amended engine_single "e" [("a", Val.int 7)] "default" [] [] 3 4 ha hb).1,
    (claim_c3_amended engine_single "e" [("a", Val.int 7)] "default" [] [] 3 4 ha hb).2⟩

/-- Claim C6: one reinforce event increments the occurrence count,
stamps last-observed with the call time, and caps confidence at
min of 1 and prior plus 0.15 (floored at 0.4 when leaving the
decaying stage); the stage moves draft to reinforced at confidence at
least 0.4, reinforced to mature at confidence at least 0.7, decaying
to reinforced unconditionally; and two reinforcements of a draft
memory with confidence 0.2 end in the reinforced stage. -/
theorem claim_c6_reinforce (m : Memory) (now : Int) :
    (advance_memory_lifecycle m true now).temporal.occurrences =
      m.temporal.occurrences + 1 ∧
    (advance_memory_lifecycle m true now).temporal.last_observed = some now ∧
    (advance_memory_lifecycle m true now).confidence =
      (if m.stage = MemoryStage.decaying then
         max (2/5) (min 1 (m.confidence + 3/20))
       else min 1 (m.confidence + 3/20)) ∧
    (advance_memory_lifecycle m true now).stage =
      (if m.stage = MemoryStage.draft then
         (if 2/5 ≤ min 1 (m.confidence + 3/20) then MemoryStage.reinforced
          else MemoryStage.draft)
       else if m.stage = MemoryStage.reinforced then
         (if 7/10 ≤ min 1 (m.confidence + 3/20) then MemoryStage.mature
          else MemoryStage.reinforced)
       else if m.stage = MemoryStage.decaying then MemoryStage.reinforced
       else m.stage) ∧
    (advance_memory_lifecycle (advance_memory_lifecycle
        { m with stage := MemoryStage.draft, confidence := 1/5 } true now) true now).stage =
      MemoryStage.reinforced := by
  refine ⟨?_, ?_, ?_, ?_, ?_⟩
  · cases hs : m.stage <;> simp [advance_memory_lifecycle, hs] <;> split_ifs <;> rfl
  · cases hs : m.stage <;> simp [advance_memory_lifecycle, hs] <;> split_ifs <;> rfl
  · cases hs : m.stage <;> simp [advance_memory_lifecycle, hs] <;> split_ifs <;> rfl
  · cases hs : m.stage <;> simp [advance_memory_lifecycle, hs] <;> split_ifs <;> rfl
  · have h1 : min (1 : ℚ) (1/5 + 3/20) = 7/20 := by norm_num
    have h2 : ¬ ((2:ℚ)/5 ≤ 7/20) := by norm_num
    simp [advance_memory_lifecycle, h1, h2]
    norm_num

/-- Lookup in an association list with distinct keys finds the stored
binding. -/
theorem dict_get_of_mem_nodup {β : Type} (l : List (String × β)) (kv : String × β)
    (hm : kv ∈ l) (hnd : (l.map Prod.fst).Nodup) : dict_get l kv.1 = some kv.2 := by
  induction l with
  | nil => cases hm
  | cons hd rest ih =>
    rcases List.mem_cons.mp hm with rfl | hm2
    · unfold dict_get
      simp
    · rw [List.map_cons] at hnd
      obtain ⟨hnotin, hndr⟩ := List.nodup_cons.mp hnd
      have h1 : kv.1 ∈ rest.map Prod.fst := List.mem_map_of_mem Prod.fst hm2
      have hne : hd.1 ≠ kv.1 := fun he => hnotin (he ▸ h1)
      unfold dict_get
      rw [if_neg hne]
      exact ih hm2 hndr

/-- Iterating build_one over the keys of an association list whose
bindings all resolve yields the per-binding builds in order. -/
theorem flatMap_build_one (e : ContextAssemblyEngine) (data : DataMap) (s : Situation)
    (l : List (String × RuntimeBlockDef))
    (h : ∀ kv ∈ l, dict_get e.block_defs kv.1 = some kv.2) :
    (l.map Prod.fst).flatMap (build_one e data s) =
      l.flatMap (fun kv => build_from_def data s kv.1 kv.2) := by
  induction l with
  | nil => rfl
  | cons kv rest ih =>
    simp only [List.map_cons, List.flatMap_cons]
    rw [ih (fun x hx => h x (List.mem_cons_of_mem kv hx))]
    congr 1
    unfold build_one
    rw [h kv (List.mem_cons_self kv rest)]

/-- Claim C10: a resolved mode configuration with an empty active-key
list treats every registered block definition as active, drawing the
candidate blocks from all definitions in registration order. -/
theorem claim_c10_empty_block_keys (e : ContextAssemblyEngine) (data : DataMap)
    (s : Situation) (mc : ModeConfig) (hk : mc.block_keys = [])
    (hnd : (e.block_defs.map Prod.fst).Nodup) :
    build_blocks e data s mc =
      e.block_defs.flatMap (fun kv => build_from_def data s kv.1 kv.2) := by
  unfold build_blocks
  rw [hk]
  simp only [List.isEmpty_nil, if_true]
  exact flatMap_build_one e data s e.block_defs
    (fun kv hm => dict_get_of_mem_nodup e.block_defs kv hm hnd)

/-- Witness for claim C10 at a concrete two-definition engine. -/
theorem claim_c10_witness :
    ((resolve_mode_config engine_pair "default").block_keys = [] ∧
     (engine_pair.block_defs.map Prod.fst).Nodup) ∧
    build_blocks engine_pair [("a", Val.int 1)] {}
        (resolve_mode_config engine_pair "default") =
      engine_pair.block_defs.flatMap
        (fun kv => build_from_def [("a", Val.int 1)] {} kv.1 kv.2) := by
  refine ⟨⟨rfl, by decide⟩, ?_⟩
  exact claim_c10_empty_block_keys engine_pair [("a", Val.int 1)] {}
    (resolve_mode_config engine_pair "default") rfl (by decide)

/-- The selection loop marks its included output included and its
excluded output not included. -/
theorem select_loop_included_flags (bs : List Block) (r : Int) :
    (∀ b ∈ (select_loop bs r).1, b.included = true) ∧
    (∀ b ∈ (select_loop bs r).2, b.included = false) := by
  induction bs generalizing r with
  | nil => simp [select_loop]
  | cons b bs ih =>
    by_cases h : b.estimated_tokens ≤ r
    · simp only [select_loop, if_pos h]
      constructor
      · intro x hx
        rcases List.mem_cons.mp hx with rfl | hx2
        · rfl
        · exact (ih _).1 x hx2
      · intro x hx
        exact (ih _).2 x hx
    · simp only [select_loop, if_neg h]
      constructor
      · intro x hx
        exact (ih _).1 x hx
      · intro x hx
        rcases List.mem_cons.mp hx with rfl | hx2
        · rfl
        · exact (ih _).2 x hx2

/-- The greedy loop never includes more tokens than the nonnegative
remaining budget it starts from. -/
theorem select_loop_sum_le (bs : List Block) (r : Int) (hr : 0 ≤ r) :
    ((select_loop bs r).1.map (fun b => b.estimated_tokens)).sum ≤ r := by
  induction bs generalizing r with
  | nil => simpa [select_loop] using hr
  | cons b bs ih =>
    by_cases h : b.estimated_tokens ≤ r
    · simp only [select_loop, if_pos h, List.map_cons, List.sum_cons]
      have h2 : 0 ≤ r - b.estimated_tokens := by omega
      have h3 := ih (r - b.estimated_tokens) h2
      have hproj : ({ b with included := true } : Block).estimated_tokens =
          b.estimated_tokens := rfl
      rw [hproj]
      omega
    · simp only [select_loop, if_neg h]
      exact ih r hr

/-- Blocks built from definitions are created not yet included. -/
theorem build_from_def_not_included (data : DataMap) (s : Situation) (key : String)
    (bd : RuntimeBlockDef) : ∀ b ∈ build_from_def data s key bd, b.included = false := by
  intro b hb
  unfold build_from_def at hb
  split at hb
  · cases hb
  · split at hb
    · rcases List.mem_singleton.mp hb with rfl
      rfl
    · rcases List.mem_singleton.mp hb with rfl
      rfl

/-- All blocks produced by the block builder are not yet included. -/
theorem build_blocks_not_included (e : ContextAssemblyEngine) (data : DataMap)
    (s : Situation) (mc : ModeConfig) :
    ∀ b ∈ build_blocks e data s mc, b.included = false := by
  intro b hb
  unfold build_blocks at hb
  obtain ⟨key, _, hb2⟩ := List.mem_flatMap.mp hb
  unfold build_one at hb2
  split at hb2
  · cases hb2
  · exact build_from_def_not_included data s key _ b hb2

/-- Goal adjustment of one goal does not touch the included flag. -/
theorem apply_one_goal_not_included (blocks : List Block) (g : Goal)
    (h : ∀ b ∈ blocks, b.included = false) :
    ∀ b ∈ apply_one_goal blocks g, b.included = false := by
  intro b hb
  unfold apply_one_goal at hb
  split at hb
  · exact h b hb
  · obtain ⟨a, ha, rfl⟩ := List.mem_map.mp hb
    dsimp only
    split
    · exact h a ha
    · exact h a ha

/-- Goal adjustments do not touch the included flag. -/
theorem apply_goal_adjustments_not_included (blocks : List Block) (goals : List Goal)
    (h : ∀ b ∈ blocks, b.included = false) :
    ∀ b ∈ apply_goal_adjustments blocks goals, b.included = false := by
  induction goals generalizing blocks with
  | nil => exact h
  | cons g rest ih =>
    exact ih (apply_one_goal blocks g) (apply_one_goal_not_included blocks g h)

/-- Scoring-rule adjustment of one rule does not touch the included
flag. -/
theorem apply_one_rule_not_included (blocks : List Block) (r : ScoringRule)
    (s : Situation) (h : ∀ b ∈ blocks, b.included = false) :
    ∀ b ∈ apply_one_rule blocks r s, b.included = false := by
  intro b hb
  unfold apply_one_rule at hb
  obtain ⟨a, ha, rfl⟩ := List.mem_map.mp hb
  dsimp only
  split <;> split <;> exact h a ha

/-- Scoring rules and the final clamp do not touch the included flag. -/
theorem apply_scoring_rules_not_included (rules : List ScoringRule)
    (blocks : List Block) (s : Situation) (h : ∀ b ∈ blocks, b.included = false) :
    ∀ b ∈ apply_scoring_rules rules blocks s, b.included = false := by
  have hf : ∀ (bs : List Block), (∀ b ∈ bs, b.included = false) →
      ∀ b ∈ rules.foldl (fun acc r => apply_one_rule acc r s) bs, b.included = false := by
    induction rules with
    | nil => intro bs hbs; simpa using hbs
    | cons r rest ih =>
      intro bs hbs
      exact ih (apply_one_rule bs r s) (apply_one_rule_not_included bs r s hbs)
  intro b hb
  unfold apply_scoring_rules at hb
  obtain ⟨a, ha, rfl⟩ := List.mem_map.mp hb
  exact hf blocks h a ha

/-- Memory blocks are created not yet included. -/
theorem build_memory_blocks_not_included (memories : List Memory) (s : Situation) :
    ∀ b ∈ build_memory_blocks memories s, b.included = false := by
  intro b hb
  unfold build_memory_blocks at hb
  obtain ⟨mem, _, hb2⟩ := List.mem_flatMap.mp hb
  split at hb2
  · cases hb2
  · rcases List.mem_singleton.mp hb2 with rfl
    rfl

/-- Every block entering the budget selector during assemble carries
included equal to false. -/
theorem assemble_blocks_not_included (e : ContextAssemblyEngine) (data : DataMap)
    (s : Situation) (mc : ModeConfig) (goals : List Goal) (memories : List Memory) :
    ∀ b ∈ assemble_blocks e data s mc goals memories, b.included = false := by
  intro b hb
  simp only [assemble_blocks] at hb
  have h1 := build_blocks_not_included e data s mc
  have h2 : ∀ x ∈ (if goals.isEmpty then build_blocks e data s mc
      else apply_goal_adjustments (build_blocks e data s mc) goals),
      x.included = false := by
    split
    · exact h1
    · exact apply_goal_adjustments_not_included _ goals h1
  have h3 := apply_scoring_rules_not_included e.scoring_rules _ s h2
  split at hb
  · exact h3 b hb
  · rcases List.mem_append.mp hb with hb2 | hb2
    · exact h3 b hb2
    · exact build_memory_blocks_not_included memories s b hb2

/-- Combined facts about the budget selector on blocks that are not
yet included: token sum within a nonnegative budget, included outputs
flagged included, excluded outputs flagged not included. -/
theorem select_within_budget_facts (blocks : List Block) (budget : Int)
    (hb : ∀ b ∈ blocks, b.included = false) (hr : 0 ≤ budget) :
    (((select_within_budget blocks budget).1.map (fun b => b.estimated_tokens)).sum
      ≤ budget) ∧
    (∀ b ∈ (select_within_budget blocks budget).1, b.included = true) ∧
    (∀ b ∈ (select_within_budget blocks budget).2, b.included = false) := by
  unfold select_within_budget
  refine ⟨select_loop_sum_le _ _ hr, (select_loop_included_flags _ _).1, ?_⟩
  intro b hbm
  rcases List.mem_append.mp hbm with h1 | h2
  · exact hb b (List.mem_of_mem_filter h1)
  · exact (select_loop_included_flags _ _).2 b h2

/-- Filtering the manifest entries of included-then-excluded blocks by
the included flag keeps exactly the included blocks' entries. -/
theorem filter_included_entries (inc exc : List Block)
    (hi : ∀ b ∈ inc, b.included = true) (he : ∀ b ∈ exc, b.included = false) :
    ((inc ++ exc).map to_manifest_entry).filter (fun en => en.included) =
      inc.map to_manifest_entry := by
  rw [List.map_append, List.filter_append]
  have h1 : (inc.map to_manifest_entry).filter (fun en => en.included) =
      inc.map to_manifest_entry := by
    rw [List.filter_eq_self]
    intro en hen
    obtain ⟨b, hb, rfl⟩ := List.mem_map.mp hen
    exact hi b hb
  have h2 : (exc.map to_manifest_entry).filter (fun en => en.included) = [] := by
    rw [List.filter_eq_nil_iff]
    intro en hen
    obtain ⟨b, hb, rfl⟩ := List.mem_map.mp hen
    simp [to_manifest_entry, he b hb]
  rw [h1, h2, List.append_nil]

/-- Claim C2 counterexample: a mode configured with budget -1 (a plain
int nothing rules out) yields a run whose included token sum 0 exceeds
the manifest budget total of -1, so the claimed inequality fails. -/
theorem claim_c2_counterexample :
    manifest_included_tokens
      (assemble engine_negative "x" [("a", Val.int 7)] "default" [] [] 0).2 = 0 ∧
    (assemble engine_negative "x" [("a", Val.int 7)] "default" [] [] 0).2.budget.total_tokens
      = -1 ∧
    ¬ (manifest_included_tokens
        (assemble engine_negative "x" [("a", Val.int 7)] "default" [] [] 0).2 ≤
      (assemble engine_negative "x" [("a", Val.int 7)] "default" [] [] 0).2.budget.total_tokens) := by
  refine ⟨?_, ?_, ?_⟩ <;> decide

/-- Claim C2 amended: whenever the resolved mode budget is
nonnegative, the manifest satisfies the three claimed invariants: the
included token sum is at most the budget total, used plus remaining
tokens equal the total, and the included plus excluded counts equal
the total blocks considered, which is the number of entries. -/
theorem claim_c2_manifest_invariants (e : ContextAssemblyEngine) (entity_id : String)
    (data : DataMap) (mode : String) (goals : List Goal) (memories : List Memory)
    (now : Int) (h : 0 ≤ (resolve_mode_config e mode).budget) :
    manifest_included_tokens (assemble e entity_id data mode goals memories now).2 ≤
      (assemble e entity_id data mode goals memories now).2.budget.total_tokens ∧
    (assemble e entity_id data mode goals memories now).2.budget.used_tokens +
        (assemble e entity_id data mode goals memories now).2.budget.remaining_tokens =
      (assemble e entity_id data mode goals memories now).2.budget.total_tokens ∧
    (assemble e entity_id data mode goals memories now).2.budget.blocks_included +
        (assemble e entity_id data mode goals memories now).2.budget.blocks_excluded =
      (assemble e entity_id data mode goals memories now).2.total_blocks_considered ∧
    (assemble e entity_id data mode goals memories now).2.total_blocks_considered =
      ((assemble e entity_id data mode goals memories now).2.entries.length : Int) := by
  obtain ⟨hsum, hinc, hexc⟩ :=
    select_within_budget_facts
      (assemble_blocks e data
        { e.analyze_situation data now with entity_id := entity_id, mode := mode }
        (resolve_mode_config e mode) goals memories)
      (resolve_mode_config e mode).budget
      (assemble_blocks_not_included e data
        { e.analyze_situation data now with entity_id := entity_id, mode := mode }
        (resolve_mode_config e mode) goals memories)
      h
  refine ⟨?_, ?_, ?_, ?_⟩
  · show manifest_included_tokens _ ≤ _
    unfold manifest_included_tokens
    simp only [assemble]
    rw [filter_included_entries _ _ hinc hexc, List.map_map]
    exact hsum
  · simp only [assemble]
    omega
  · simp only [assemble]
    simp [List.length_append]
  · rfl

/-- Witness for the amended claim C2 at a concrete engine. -/
theorem claim_c2_witness :
    0 ≤ (resolve_mode_config engine_single "default").budget ∧
    manifest_included_tokens
        (assemble engine_single "x" [("a", Val.int 7)] "default" [] [] 0).2 ≤
      (assemble engine_single "x" [("a", Val.int 7)] "default" [] [] 0).2.budget.total_tokens := by
  constructor
  · decide
  · exact (claim_c2_manifest_invariants engine_single "x" [("a", Val.int 7)] "default"
      [] [] 0 (by decide)).1

/-- Ordered insertion along descending priority either prepends the
new block to a fixed-priority fiber or leaves the fiber untouched:
the key step of sort stability. -/
theorem filter_priority_orderedInsert (p : ℚ) (x : Block) (L : List Block) :
    (L.orderedInsert block_ge x).filter (fun b => b.priority = p) =
      if x.priority = p then x :: L.filter (fun b => b.priority = p)
      else L.filter (fun b => b.priority = p) := by
  induction L with
  | nil =>
    by_cases h : x.priority = p <;> simp [List.orderedInsert, List.filter, h]
  | cons y ys ih =>
    by_cases hxy : block_ge x y
    · rw [List.orderedInsert, if_pos hxy]
      by_cases hx : x.priority = p <;> simp [List.filter, hx]
    · rw [List.orderedInsert, if_neg hxy]
      by_cases hy : y.priority = p
      · by_cases hx : x.priority = p
        · exfalso
          apply hxy
          show y.priority ≤ x.priority
          rw [hx, hy]
        · simp [List.filter, hy, hx, ih]
      · by_cases hx : x.priority = p <;> simp [List.filter, hy, hx, ih]

/-- The descending block sort is stable: it preserves every
fixed-priority fiber of the input exactly. -/
theorem filter_priority_sort_blocks_desc (p : ℚ) (l : List Block) :
    (sort_blocks_desc l).filter (fun b => b.priority = p) =
      l.filter (fun b => b.priority = p) := by
  induction l with
  | nil => rfl
  | cons x xs ih =>
    show ((List.insertionSort block_ge xs).orderedInsert block_ge x).filter _ = _
    rw [filter_priority_orderedInsert]
    by_cases hx : x.priority = p <;> simp [List.filter, hx, ih]
      <;> exact ih

/-- The spec-worded fold over the candidates computes the same
included and excluded lists as the selection loop, for any starting
accumulators. -/
theorem spec_select_foldl (bs : List Block) (a1 a2 : List Block) (r : Int) :
    (bs.foldl spec_select_step (a1, a2, r)).1 = a1 ++ (select_loop bs r).1 ∧
    (bs.foldl spec_select_step (a1, a2, r)).2.1 = a2 ++ (select_loop bs r).2 := by
  induction bs generalizing a1 a2 r with
  | nil => simp [select_loop]
  | cons b bs ih =>
    by_cases h : b.estimated_tokens ≤ r
    · simp only [List.foldl_cons, spec_select_step, if_pos h, select_loop]
      obtain ⟨h1, h2⟩ := ih (a1 ++ [{ b with included := true }]) a2 (r - b.estimated_tokens)
      constructor
      · rw [h1, List.append_assoc]
        rfl
      · rw [h2]
    · simp only [List.foldl_cons, spec_select_step, if_neg h, select_loop]
      obtain ⟨h1, h2⟩ := ih a1
        (a2 ++ [{ b with included := false, exclude_reason := some (budget_reason r) }]) r
      constructor
      · rw [h1]
      · rw [h2, List.append_assoc]
        rfl

/-- Claim C1: the budget selector equals the spec-worded selector
(pre-excluded blocks pass straight to the excluded set; the sorted
candidates are folded greedily, including a block exactly when its
token estimate fits the remaining budget, which is then decremented,
and excluding it otherwise with the remaining-budget reason), and the
candidate ordering is the stable descending priority order: a
permutation of the candidates, sorted descending, preserving every
fixed-priority fiber in original order (which uniquely determines the
iteration order). -/
theorem claim_c1_budget_selector (blocks : List Block) (budget : Int) :
    select_within_budget blocks budget = spec_select blocks budget ∧
    (sort_blocks_desc (blocks.filter (fun b => b.exclude_reason.isNone))).Perm
      (blocks.filter (fun b => b.exclude_reason.isNone)) ∧
    List.Sorted block_ge
      (sort_blocks_desc (blocks.filter (fun b => b.exclude_reason.isNone))) ∧
    ∀ p : ℚ,
      (sort_blocks_desc (blocks.filter (fun b => b.exclude_reason.isNone))).filter
          (fun b => b.priority = p) =
        (blocks.filter (fun b => b.exclude_reason.isNone)).filter
          (fun b => b.priority = p) := by
  refine ⟨?_, List.perm_insertionSort block_ge _, List.sorted_insertionSort block_ge _,
    fun p => filter_priority_sort_blocks_desc p _⟩
  unfold select_within_budget spec_select
  dsimp only
  obtain ⟨h1, h2⟩ := spec_select_foldl
    (sort_blocks_desc (blocks.filter (fun b => b.exclude_reason.isNone))) [] [] budget
  rw [Prod.ext_iff]
  constructor
  · rw [h1]
    rfl
  · rw [h2]
    rfl

/-- The list average is invariant under permutation. -/
theorem avg_of_perm {l1 l2 : List ℚ} (h : l1.Perm l2) : avg_of l1 = avg_of l2 := by
  have hlen := h.length_eq
  have hsum := h.sum_eq
  have hemp : l1.isEmpty = l2.isEmpty := by
    rcases l1 with _ | ⟨x, xs⟩ <;> rcases l2 with _ | ⟨y, ys⟩ <;> simp_all
  unfold avg_of
  rw [hemp, hsum, hlen]

/-- Two sorted permutations of the same observations start at the same
timestamp, for any relation antisymmetric on timestamps. -/
theorem perm_sorted_head_fst {r : (Int × ℚ) → (Int × ℚ) → Prop}
    (hanti : ∀ a b, r a b → r b a → a.1 = b.1)
    {s1 s2 : List (Int × ℚ)} (hp : s1.Perm s2)
    (h1 : List.Pairwise r s1) (h2 : List.Pairwise r s2) :
    s1.head?.map Prod.fst = s2.head?.map Prod.fst := by
  rcases s1 with _ | ⟨x, t1⟩
  · have hn : s2 = [] := hp.symm.eq_nil
    rw [hn]
  · rcases s2 with _ | ⟨y, t2⟩
    · cases hp.eq_nil
    · have hy : y ∈ x :: t1 := hp.mem_iff.mpr (List.mem_cons_self y t2)
      have hx : x ∈ y :: t2 := hp.mem_iff.mp (List.mem_cons_self x t1)
      have hxy : x.1 = y.1 := by
        rcases List.mem_cons.mp hy with hh | hh
        · rw [hh]
        · have l1 : r x y := (List.pairwise_cons.mp h1).1 y hh
          rcases List.mem_cons.mp hx with hh2 | hh2
          · rw [hh2]
          · have l2 : r y x := (List.pairwise_cons.mp h2).1 x hh2
            exact hanti x y l1 l2
      simp [hxy]

/-- Two sorted permutations of the same observations end at the same
timestamp. -/
theorem perm_sorted_getLast_fst {s1 s2 : List (Int × ℚ)} (hp : s1.Perm s2)
    (h1 : List.Sorted ts_le s1) (h2 : List.Sorted ts_le s2) :
    s1.getLast?.map Prod.fst = s2.getLast?.map Prod.fst := by
  rw [← List.head?_reverse, ← List.head?_reverse]
  apply perm_sorted_head_fst (r := fun a b => ts_le b a)
  · intro a b hab hba
    exact le_antisymm hba hab
  · exact (List.reverse_perm s1).trans (hp.trans (List.reverse_perm s2).symm)
  · rw [List.pairwise_reverse]
    exact h1
  · rw [List.pairwise_reverse]
    exact h2

/-- Claim C8 counterexample: compute_temporal sorts the caller's list
in place, so after a call on an unsorted list the list differs from
the value it was passed with: the function is not free of effects on
its input. -/
theorem claim_c8_counterexample :
    (compute_temporal [(1, (0:ℚ)), (0, 0)] 100 14 30 90).1 ≠ [(1, 0), (0, 0)] := by
  decide

/-- Claim C8 amended: the metadata returned by compute_temporal is the
same for every permutation of the observation list, and the empty
list yields the zero-valued stable metadata; however the input list
itself is sorted in place rather than left unmodified. -/
theorem claim_c8_order_invariance (l1 l2 : List (Int × ℚ)) (now wc wp wb : Int)
    (h : l1.Perm l2) :
    (compute_temporal l1 now wc wp wb).2 = (compute_temporal l2 now wc wp wb).2 ∧
    (compute_temporal [] now wc wp wb).2 = ({} : TemporalMetadata) := by
  refine ⟨?_, rfl⟩
  by_cases h1 : l1 = []
  · subst h1
    have h2 : l2 = [] := h.symm.eq_nil
    subst h2
    rfl
  · have h2 : l2 ≠ [] := fun he => h1 (List.Perm.eq_nil (he ▸ h))
    unfold compute_temporal
    rw [if_neg (by simpa [List.isEmpty_iff] using h1),
        if_neg (by simpa [List.isEmpty_iff] using h2)]
    have hs : (List.insertionSort ts_le l1).Perm (List.insertionSort ts_le l2) :=
      (List.perm_insertionSort ts_le l1).trans
        (h.trans (List.perm_insertionSort ts_le l2).symm)
    have hs1 : List.Sorted ts_le (List.insertionSort ts_le l1) :=
      List.sorted_insertionSort ts_le l1
    have hs2 : List.Sorted ts_le (List.insertionSort ts_le l2) :=
      List.sorted_insertionSort ts_le l2
    have hc : (current_window (List.insertionSort ts_le l1) now wc).Perm
        (current_window (List.insertionSort ts_le l2) now wc) := (hs.filter _).map _
    have hpv : (past_window (List.insertionSort ts_le l1) now wc wp).Perm
        (past_window (List.insertionSort ts_le l2) now wc wp) := (hs.filter _).map _
    have hbv : (past_window (List.insertionSort ts_le l1) now wp wb).Perm
        (past_window (List.insertionSort ts_le l2) now wp wb) := (hs.filter _).map _
    have hhd := perm_sorted_head_fst
      (r := ts_le) (fun a b hab hba => le_antisymm hab hba) hs hs1 hs2
    have hlast := perm_sorted_getLast_fst hs hs1 hs2
    unfold temporal_meta
    dsimp only
    rw [avg_of_perm hc, avg_of_perm hpv, avg_of_perm hbv, hc.length_eq,
        hhd, hlast, h.length_eq]

/-- Witness for the amended claim C8 at a concrete permutation. -/
theorem claim_c8_witness :
    ([((1:Int), (5:ℚ)), (2, 7)]).Perm [(2, 7), (1, 5)] ∧
    (compute_temporal [(1, (5:ℚ)), (2, 7)] 100 14 30 90).2 =
      (compute_temporal [(2, 7), (1, 5)] 100 14 30 90).2 := by
  constructor
  · decide
  · exact (claim_c8_order_invariance [(1, 5), (2, 7)] [(2, 7), (1, 5)] 100 14 30 90
      (by decide)).1
